import Mathlib

/-!
Shallow embedding of the ink! quiz contract (src/lib.rs, module `quiz`).

Modelling conventions:
* `AccountId` (an opaque 32-byte address in ink!) is modelled as `Nat`;
  the code only ever compares identities for equality.
* `Mapping<AccountId, PowerLevel>` is modelled as a function
  `AccountId → Option PowerLevel`; `insert` overwrites the entry at a key.
* `Vec<Question>` is a `List Question`; `push` appends on the right,
  `get(index as usize)` is `List.get?`.  The `u32` index embeds into `Nat`.
* The Blake2x256 digest of the SCALE encoding of a `String` is an external
  primitive of the ink! environment (not code of this repository), so the
  operations are parameterised over an arbitrary digest function
  `hash : String → Digest`; a digest `[u8; 32]` is abstracted to `Nat`,
  since the code only ever compares digests for equality.
* `Self::env().caller()` is an ambient input supplied by the host; every
  operation takes the caller as an explicit argument.
* A `&mut self` method returning `Result<T, Error>` becomes a pure function
  returning `Quiz × Except Error T` (new state, result); a `&self` method
  returns only `Except Error T`, so reads cannot mutate by construction.
-/

/-- Digest type standing for the 32-byte Blake2x256 output. -/
abbrev Digest := Nat

/-- Account identities, compared only for equality. -/
abbrev AccountId := Nat

/-- Rust: `pub enum PowerLevel { Educator, User }`. -/
inductive PowerLevel where
  | Educator
  | User
deriving DecidableEq, Repr

/-- Rust: `pub enum Error { WrongAnswer, QuestionDoesntExist, InvalidPowerLevel, InvalidCaller }`. -/
inductive Error where
  | WrongAnswer
  | QuestionDoesntExist
  | InvalidPowerLevel
  | InvalidCaller
deriving DecidableEq, Repr

/-- Rust: `pub struct Question { question: String, answer: [u8; 32] }`. -/
structure Question where
  question : String
  answer : Digest
deriving DecidableEq, Repr

/-- Rust: `pub struct Quiz { owner: AccountId, questions: Vec<Question>, actors: Mapping<AccountId, PowerLevel> }`. -/
structure Quiz where
  owner : AccountId
  questions : List Question
  actors : AccountId → Option PowerLevel

/-- Rust constructor `Quiz::new`: the caller becomes owner and is inserted
into `actors` with `PowerLevel::Educator`; `questions` starts empty. -/
def Quiz.new (caller : AccountId) : Quiz :=
  { owner := caller
    questions := []
    actors := fun id => if id = caller then some PowerLevel.Educator else none }

/-- Rust `ensure_powerlevel`: looks the id up in `actors`; absent keys give
`InvalidCaller`, a stored level different from the required one gives
`InvalidPowerLevel`, an exact match gives `Ok(())`. -/
def Quiz.ensure_powerlevel (q : Quiz) (id : AccountId) (level : PowerLevel) : Except Error Unit :=
  match q.actors id with
  | some power_level =>
      if power_level = level then Except.ok () else Except.error Error.InvalidPowerLevel
  | none => Except.error Error.InvalidCaller

/-- Rust `ensure_contract_owner`: `InvalidCaller` unless the id equals `owner`. -/
def Quiz.ensure_contract_owner (q : Quiz) (id : AccountId) : Except Error Unit :=
  if id ≠ q.owner then Except.error Error.InvalidCaller else Except.ok ()

/-- Rust `add_question`: requires the caller to have `PowerLevel::Educator`,
then pushes `{ question, answer: hash(answer) }` onto `questions`.  The `?`
operator short-circuits, returning the permission error with the state
untouched. -/
def Quiz.add_question (hash : String → Digest) (q : Quiz) (caller : AccountId)
    (question answer : String) : Quiz × Except Error Unit :=
  match q.ensure_powerlevel caller PowerLevel.Educator with
  | Except.error e => (q, Except.error e)
  | Except.ok () =>
      let answer_hash := hash answer
      ({ q with questions := q.questions ++ [{ question := question, answer := answer_hash }] },
        Except.ok ())

/-- Rust `add_educator`: requires the caller to be the owner, then inserts
`PowerLevel::Educator` for `educator` into `actors` — and then returns
`Err(Error::InvalidCaller)` even on that successful path, exactly as the
source does on lines 85-90. -/
def Quiz.add_educator (q : Quiz) (caller educator : AccountId) : Quiz × Except Error Unit :=
  match q.ensure_contract_owner caller with
  | Except.error e => (q, Except.error e)
  | Except.ok () =>
      ({ q with actors := fun id => if id = educator then some PowerLevel.Educator else q.actors id },
        Except.error Error.InvalidCaller)

/-- Rust `get`: `questions.get(index)`, cloning the entry on a hit and
returning `QuestionDoesntExist` on a miss.  A `&self` method: no mutation. -/
def Quiz.get (q : Quiz) (index : Nat) : Except Error Question :=
  match q.questions.get? index with
  | some valid_question => Except.ok valid_question
  | none => Except.error Error.QuestionDoesntExist

/-- Rust `check_answer`: `get(index)?`, then compares the stored digest with
the digest of the attempt; `Ok(true)` on a match, `Err(WrongAnswer)` otherwise. -/
def Quiz.check_answer (hash : String → Digest) (q : Quiz) (index : Nat)
    (attempt : String) : Except Error Bool :=
  match q.get index with
  | Except.error e => Except.error e
  | Except.ok question =>
      let answer_hash := hash attempt
      if question.answer = answer_hash then Except.ok true else Except.error Error.WrongAnswer

/-- States reachable from the constructor by the two mutating messages
(`get` and `check_answer` take `&self` and cannot change the state). -/
inductive Reachable : Quiz → Prop where
  | new (caller : AccountId) : Reachable (Quiz.new caller)
  | stepAddQuestion (hash : String → Digest) (q : Quiz) (c : AccountId) (pr ans : String) :
      Reachable q → Reachable (Quiz.add_question hash q c pr ans).1
  | stepAddEducator (q : Quiz) (c e : AccountId) :
      Reachable q → Reachable (Quiz.add_educator q c e).1

/-- Folds a list of `add_question` calls (caller, prompt, answer) over a state. -/
def applyQuestions (hash : String → Digest) : Quiz → List (AccountId × String × String) → Quiz
  | q, [] => q
  | q, (c, pr, ans) :: calls => applyQuestions hash (Quiz.add_question hash q c pr ans).1 calls

/-- Sample digest function used to evaluate witnesses on concrete inputs. -/
def sampleHash (s : String) : Digest := s.length

/-- Sample state: freshly constructed registry owned by account 0. -/
def q0 : Quiz := Quiz.new 0

/-- Sample state: `q0` after the owner added one question. -/
def q1 : Quiz := (Quiz.add_question sampleHash q0 0 "What color is the sky?" "Blue").1

/- Helper lemmas shared by the claim theorems. -/

lemma get_ok (q : Quiz) (i : Nat) (hi : i < q.questions.length) :
    Quiz.get q i = Except.ok (q.questions.get ⟨i, hi⟩) := by
  simp [Quiz.get, List.getElem?_eq_getElem hi]

lemma get_err (q : Quiz) (i : Nat) (hi : q.questions.length ≤ i) :
    Quiz.get q i = Except.error Error.QuestionDoesntExist := by
  simp [Quiz.get, List.getElem?_eq_none hi]

lemma add_question_questions_extend (hash : String → Digest) (q : Quiz) (c : AccountId)
    (pr ans : String) :
    ∃ s, (Quiz.add_question hash q c pr ans).1.questions = q.questions ++ s := by
  cases hpl : q.ensure_powerlevel c PowerLevel.Educator with
  | ok u =>
      cases u
      exact ⟨[{ question := pr, answer := hash ans }], by simp [Quiz.add_question, hpl]⟩
  | error e => exact ⟨[], by simp [Quiz.add_question, hpl]⟩

lemma applyQuestions_extend (hash : String → Digest)
    (calls : List (AccountId × String × String)) :
    ∀ q : Quiz, ∃ s, (applyQuestions hash q calls).questions = q.questions ++ s := by
  induction calls with
  | nil => intro q; exact ⟨[], by simp [applyQuestions]⟩
  | cons hd tl ih =>
      intro q
      obtain ⟨c, pr, ans⟩ := hd
      obtain ⟨s1, hs1⟩ := add_question_questions_extend hash q c pr ans
      obtain ⟨s2, hs2⟩ := ih (Quiz.add_question hash q c pr ans).1
      exact ⟨s1 ++ s2, by rw [applyQuestions, hs2, hs1, List.append_assoc]⟩

lemma add_question_actors_owner (hash : String → Digest) (q : Quiz) (c : AccountId)
    (pr ans : String) :
    (Quiz.add_question hash q c pr ans).1.actors = q.actors ∧
      (Quiz.add_question hash q c pr ans).1.owner = q.owner := by
  cases hpl : q.ensure_powerlevel c PowerLevel.Educator with
  | ok u => cases u; simp [Quiz.add_question, hpl]
  | error e => simp [Quiz.add_question, hpl]

/- Claim theorems. -/

/-- C1: for every registry state, a call of `add_educator` by the stored owner
inserts the Educator role for the target into `actors` and still returns
`Err(InvalidCaller)`; it never returns `Ok(())`. -/
theorem add_educator_owner_grants_and_errs (q : Quiz) (t : AccountId) :
    (Quiz.add_educator q q.owner t).1.actors t = some PowerLevel.Educator ∧
      (Quiz.add_educator q q.owner t).2 = Except.error Error.InvalidCaller := by
  constructor <;> simp [Quiz.add_educator, Quiz.ensure_contract_owner]

/-- C2 counterexample: on the fresh registry owned by account 0, the owner's
call `add_educator 1` returns an error, yet the state is mutated (`actors 1`
changes from `none` to `some Educator`), contradicting the claim that every
operation returning an error makes zero observable mutation. -/
theorem ops_atomicity_cex :
    (Quiz.add_educator (Quiz.new 0) 0 1).2 = Except.error Error.InvalidCaller ∧
      ¬ (Quiz.add_educator (Quiz.new 0) 0 1).1.actors 1 = (Quiz.new 0).actors 1 :=
  ⟨rfl, by decide⟩

/-- C2 amended: `add_question` is atomic (either it appends its entry and
returns `Ok(())`, or it returns an error with the state unchanged), and `get`
and `check_answer` are reads that cannot mutate; but `add_educator` always
returns `Err(InvalidCaller)`, mutating `actors` (inserting Educator for the
target) exactly when the caller is the owner and leaving the state unchanged
otherwise. -/
theorem ops_atomicity_amended (hash : String → Digest) (q : Quiz) (c e : AccountId)
    (pr ans : String) :
    ((Quiz.add_question hash q c pr ans).2 = Except.ok () ∧
        (Quiz.add_question hash q c pr ans).1 =
          { q with questions := q.questions ++ [{ question := pr, answer := hash ans }] } ∨
      (∃ err, (Quiz.add_question hash q c pr ans).2 = Except.error err) ∧
        (Quiz.add_question hash q c pr ans).1 = q) ∧
    (Quiz.add_educator q c e).2 = Except.error Error.InvalidCaller ∧
    (if c = q.owner then
        (Quiz.add_educator q c e).1 =
          { q with actors := fun id => if id = e then some PowerLevel.Educator else q.actors id }
      else (Quiz.add_educator q c e).1 = q) := by
  refine ⟨?_, ?_, ?_⟩
  · cases hpl : q.ensure_powerlevel c PowerLevel.Educator with
    | ok u => cases u; left; constructor <;> simp [Quiz.add_question, hpl]
    | error err =>
        right
        exact ⟨⟨err, by simp [Quiz.add_question, hpl]⟩, by simp [Quiz.add_question, hpl]⟩
  · by_cases hc : c = q.owner <;>
      simp [Quiz.add_educator, Quiz.ensure_contract_owner, hc]
  · by_cases hc : c = q.owner <;>
      simp [Quiz.add_educator, Quiz.ensure_contract_owner, hc]

/-- C3: `check_answer` on a valid index returns `Ok(true)` when the digest of
the attempt equals the stored digest and `Err(WrongAnswer)` otherwise, never
`Ok(false)`; on an out-of-range index it returns `Err(QuestionDoesntExist)`. -/
theorem check_answer_spec (hash : String → Digest) (q : Quiz) (i : Nat) (attempt : String) :
    (∀ hi : i < q.questions.length,
        Quiz.check_answer hash q i attempt =
          if (q.questions.get ⟨i, hi⟩).answer = hash attempt then Except.ok true
          else Except.error Error.WrongAnswer) ∧
    (q.questions.length ≤ i →
        Quiz.check_answer hash q i attempt = Except.error Error.QuestionDoesntExist) ∧
    Quiz.check_answer hash q i attempt ≠ Except.ok false := by
  refine ⟨?_, ?_, ?_⟩
  · intro hi
    simp [Quiz.check_answer, get_ok q i hi]
  · intro hi
    simp [Quiz.check_answer, get_err q i hi]
  · rcases Nat.lt_or_ge i q.questions.length with hi | hi
    · simp only [Quiz.check_answer, get_ok q i hi]
      split <;> simp
    · simp [Quiz.check_answer, get_err q i hi]

/-- C3 witness: on the one-question registry `q1`, index 1 is out of range and
`check_answer` fails with `QuestionDoesntExist`. -/
theorem check_answer_spec_witness :
    Quiz.check_answer sampleHash q1 1 "Blue" = Except.error Error.QuestionDoesntExist :=
  (check_answer_spec sampleHash q1 1 "Blue").2.1 (by decide)

/-- C4: `add_question` by a caller with role Educator appends exactly one
entry `{prompt, hash answer}` and returns `Ok(())`; a caller absent from
`actors` gets `Err(InvalidCaller)` and a caller with role User gets
`Err(InvalidPowerLevel)`, both with the state unchanged. -/
theorem add_question_spec (hash : String → Digest) (q : Quiz) (c : AccountId)
    (pr ans : String) :
    (q.actors c = some PowerLevel.Educator →
        Quiz.add_question hash q c pr ans =
          ({ q with questions := q.questions ++ [{ question := pr, answer := hash ans }] },
            Except.ok ())) ∧
    (q.actors c = none →
        Quiz.add_question hash q c pr ans = (q, Except.error Error.InvalidCaller)) ∧
    (q.actors c = some PowerLevel.User →
        Quiz.add_question hash q c pr ans = (q, Except.error Error.InvalidPowerLevel)) := by
  refine ⟨?_, ?_, ?_⟩ <;> intro h <;>
    simp [Quiz.add_question, Quiz.ensure_powerlevel, h]

/-- C4 witness: the owner of the fresh registry `q0` has role Educator, and
its `add_question` call appends the entry and succeeds. -/
theorem add_question_spec_witness :
    Quiz.add_question sampleHash q0 0 "What color is the sky?" "Blue" =
      ({ q0 with
          questions :=
            q0.questions ++
              [{ question := "What color is the sky?", answer := sampleHash "Blue" }] },
        Except.ok ()) :=
  (add_question_spec sampleHash q0 0 "What color is the sky?" "Blue").1 (by decide)

/-- C5: `get` returns the question stored at every in-range index and
`Err(QuestionDoesntExist)` at every index at or beyond the length; being a
read, it takes the state immutably and cannot mutate it. -/
theorem get_spec (q : Quiz) (i : Nat) :
    (∀ hi : i < q.questions.length, Quiz.get q i = Except.ok (q.questions.get ⟨i, hi⟩)) ∧
    (q.questions.length ≤ i → Quiz.get q i = Except.error Error.QuestionDoesntExist) :=
  ⟨fun hi => get_ok q i hi, fun hi => get_err q i hi⟩

/-- C5 witness: on the one-question registry `q1`, `get 5` is out of range. -/
theorem get_spec_witness :
    Quiz.get q1 5 = Except.error Error.QuestionDoesntExist :=
  (get_spec q1 5).2 (by decide)

/-- C6: the constructor sets `owner` to the caller, grants the caller the
Educator role, and starts with no questions, so `get 0` fails with
`QuestionDoesntExist`. -/
theorem new_spec (caller : AccountId) :
    (Quiz.new caller).owner = caller ∧
    (Quiz.new caller).actors caller = some PowerLevel.Educator ∧
    (Quiz.new caller).questions = [] ∧
    Quiz.get (Quiz.new caller) 0 = Except.error Error.QuestionDoesntExist := by
  refine ⟨rfl, by simp [Quiz.new], rfl, ?_⟩
  exact get_err (Quiz.new caller) 0 (by simp [Quiz.new])

/-- C7: `ensure_powerlevel` fails with `InvalidCaller` on an identity absent
from `actors`, fails with `InvalidPowerLevel` on a stored role different from
the required one, and succeeds exactly when the stored role equals the
required role (exact match, no hierarchy); it returns no new state. -/
theorem ensure_powerlevel_spec (q : Quiz) (id : AccountId) (level : PowerLevel) :
    (q.actors id = none →
        q.ensure_powerlevel id level = Except.error Error.InvalidCaller) ∧
    (∀ r, q.actors id = some r → r ≠ level →
        q.ensure_powerlevel id level = Except.error Error.InvalidPowerLevel) ∧
    (q.ensure_powerlevel id level = Except.ok () ↔ q.actors id = some level) := by
  refine ⟨?_, ?_, ?_⟩
  · intro h; simp [Quiz.ensure_powerlevel, h]
  · intro r h hr; simp [Quiz.ensure_powerlevel, h, hr]
  · cases hc : q.actors id with
    | none => simp [Quiz.ensure_powerlevel, hc]
    | some r =>
        by_cases hr : r = level <;> simp [Quiz.ensure_powerlevel, hc, hr]

/-- C7 witness: account 1 is absent from the fresh registry, so requiring
Educator of it fails with `InvalidCaller`. -/
theorem ensure_powerlevel_spec_witness :
    Quiz.ensure_powerlevel q0 1 PowerLevel.Educator = Except.error Error.InvalidCaller :=
  (ensure_powerlevel_spec q0 1 PowerLevel.Educator).1 (by decide)

/-- C8: in every state reachable from the constructor, the owner is present in
`actors` with role Educator; no operation removes or downgrades that entry. -/
theorem reachable_owner_educator (q : Quiz) (h : Reachable q) :
    q.actors q.owner = some PowerLevel.Educator := by
  induction h with
  | new caller => simp [Quiz.new]
  | stepAddQuestion hash q c pr ans hq ih =>
      obtain ⟨ha, ho⟩ := add_question_actors_owner hash q c pr ans
      rw [ha, ho]; exact ih
  | stepAddEducator q c e hq ih =>
      cases ho : q.ensure_contract_owner c with
      | ok u =>
          cases u
          simp only [Quiz.add_educator, ho]
          by_cases he : q.owner = e <;> simp [he, ih]
      | error err => simp only [Quiz.add_educator, ho]; exact ih

/-- C8 witness: the fresh registry owned by account 0 is reachable and maps
its owner to Educator. -/
theorem reachable_owner_educator_witness :
    (Quiz.new 0).actors (Quiz.new 0).owner = some PowerLevel.Educator :=
  reachable_owner_educator (Quiz.new 0) (Reachable.new 0)

/-- C9: the question list is append-only: after any sequence of
`add_question` calls the length never decreases, and every previously valid
index still yields, via `get`, the same question (prompt and digest) as
before. -/
theorem add_question_append_only (hash : String → Digest) (q : Quiz)
    (calls : List (AccountId × String × String)) :
    q.questions.length ≤ (applyQuestions hash q calls).questions.length ∧
    ∀ i, ∀ hi : i < q.questions.length,
      Quiz.get (applyQuestions hash q calls) i = Except.ok (q.questions.get ⟨i, hi⟩) ∧
        Quiz.get q i = Except.ok (q.questions.get ⟨i, hi⟩) := by
  obtain ⟨s, hs⟩ := applyQuestions_extend hash calls q
  constructor
  · rw [hs]; simp
  · intro i hi
    refine ⟨?_, get_ok q i hi⟩
    have h2 : (applyQuestions hash q calls).questions[i]? = some q.questions[i] := by
      rw [hs, List.getElem?_append_left hi, List.getElem?_eq_getElem hi]
    simp [Quiz.get, h2]

/-- C9 witness: after one more `add_question` on the one-question registry
`q1`, index 0 still returns the original question. -/
theorem add_question_append_only_witness :
    Quiz.get (applyQuestions sampleHash q1 [(0, "p2", "a2")]) 0 =
        Except.ok (q1.questions.get ⟨0, by decide⟩) ∧
      Quiz.get q1 0 = Except.ok (q1.questions.get ⟨0, by decide⟩) :=
  (add_question_append_only sampleHash q1 [(0, "p2", "a2")]).2 0 (by decide)

/-- C10: no operation ever inserts the User role, so in every reachable state
every identity present in `actors` has role Educator, and consequently
`add_question` can never fail with `InvalidPowerLevel` on a reachable state. -/
theorem reachable_no_user (q : Quiz) (h : Reachable q) :
    (∀ a r, q.actors a = some r → r = PowerLevel.Educator) ∧
    ∀ (hash : String → Digest) (c : AccountId) (pr ans : String),
      (Quiz.add_question hash q c pr ans).2 ≠ Except.error Error.InvalidPowerLevel := by
  have hall : ∀ a r, q.actors a = some r → r = PowerLevel.Educator := by
    induction h with
    | new caller =>
        intro a r har
        simp only [Quiz.new] at har
        by_cases ha : a = caller
        · simp [ha] at har; exact har.symm
        · simp [ha] at har
    | stepAddQuestion hash q c pr ans hq ih =>
        intro a r har
        obtain ⟨hac, _⟩ := add_question_actors_owner hash q c pr ans
        rw [hac] at har
        exact ih a r har
    | stepAddEducator q c e hq ih =>
        intro a r har
        cases ho : q.ensure_contract_owner c with
        | ok u =>
            cases u
            simp only [Quiz.add_educator, ho] at har
            by_cases ha : a = e
            · simp [ha] at har; exact har.symm
            · simp [ha] at har; exact ih a r har
        | error err =>
            simp only [Quiz.add_educator, ho] at har
            exact ih a r har
  refine ⟨hall, ?_⟩
  intro hash c pr ans
  cases hac : q.actors c with
  | none => simp [Quiz.add_question, Quiz.ensure_powerlevel, hac]
  | some r =>
      have hr : r = PowerLevel.Educator := hall c r hac
      subst hr
      simp [Quiz.add_question, Quiz.ensure_powerlevel, hac]

/-- C10 witness: on the reachable fresh registry, `add_question` by the
roleless account 1 does not fail with `InvalidPowerLevel` (it fails with
`InvalidCaller`). -/
theorem reachable_no_user_witness :
    (Quiz.add_question sampleHash (Quiz.new 0) 1 "p" "a").2 ≠
      Except.error Error.InvalidPowerLevel :=
  (reachable_no_user (Quiz.new 0) (Reachable.new 0)).2 sampleHash 1 "p" "a"
